import Mathlib

/-!
Shallow embedding of the UTXO reconciliation and unblinding pipeline of the
marina browser-extension wallet, together with theorems checking the
natural-language specification against the code.

The embedding covers:
* `toStringOutpoint` (utils, part_001);
* the reconciliation logic of `makeUtxosUpdaterThunk`
  (src/application/redux/backend.ts);
* `getAllBalances`, `compareUtxos` and `setUtxos` (part_000);
* `getUtxosFromTx` (part_001);
* `createWallet` / `restoreWallet` duplicate-wallet guard (part_000).

External-library primitives (ldk unblinding, address codecs) are passed in
as oracle parameters, so every theorem quantifies over their behaviour.
JavaScript peculiarities that matter are embedded explicitly: template
literals print `undefined` for missing fields, `!x` is truthiness (empty
string and 0 are falsy), and object spread `\x7b...acc, [k]: v\x7d`
overwrites the value at an existing key rather than adding to it.
-/

namespace Marina

/-- Decimal digit to its character, as JavaScript number-to-string produces. -/
def decDigitChar : Nat → Char
  | 0 => '0'
  | 1 => '1'
  | 2 => '2'
  | 3 => '3'
  | 4 => '4'
  | 5 => '5'
  | 6 => '6'
  | 7 => '7'
  | 8 => '8'
  | 9 => '9'
  | _ => 'x'

/-- Character back to decimal digit (left inverse of `decDigitChar` below 10). -/
def charToDecDigit : Char → Nat
  | '0' => 0
  | '1' => 1
  | '2' => 2
  | '3' => 3
  | '4' => 4
  | '5' => 5
  | '6' => 6
  | '7' => 7
  | '8' => 8
  | '9' => 9
  | _ => 10

/-- Embedding of JavaScript template-literal rendering of a non-negative
integer: its decimal digit string. -/
def natToString (n : Nat) : String :=
  if n = 0 then "0" else String.mk (((Nat.digits 10 n).map decDigitChar).reverse)

lemma charToDecDigit_decDigitChar {d : Nat} (hd : d < 10) :
    charToDecDigit (decDigitChar d) = d := by
  interval_cases d <;> rfl

lemma map_decDigitChar_inj {l₁ l₂ : List Nat}
    (h₁ : ∀ d ∈ l₁, d < 10) (h₂ : ∀ d ∈ l₂, d < 10)
    (h : l₁.map decDigitChar = l₂.map decDigitChar) : l₁ = l₂ := by
  induction l₁ generalizing l₂ with
  | nil => cases l₂ <;> simp_all
  | cons a t ih =>
    cases l₂ with
    | nil => simp_all
    | cons b t₂ =>
      simp only [List.map_cons, List.cons.injEq] at h
      have ha : a < 10 := h₁ a (by simp)
      have hb : b < 10 := h₂ b (by simp)
      have hab : a = b := by
        have := congrArg charToDecDigit h.1
        rwa [charToDecDigit_decDigitChar ha, charToDecDigit_decDigitChar hb] at this
      have ht : t = t₂ := ih (fun d hd => h₁ d (by simp [hd]))
        (fun d hd => h₂ d (by simp [hd])) h.2
      rw [hab, ht]

lemma eq_zero_of_digits_repr {n : Nat}
    (h : ((Nat.digits 10 n).map decDigitChar).reverse = ['0']) : n = 0 := by
  have h0 : (Nat.digits 10 n).map decDigitChar = ['0'] := by
    have := congrArg List.reverse h
    simpa using this
  have hdig0 : Nat.digits 10 n = [0] := by
    cases hdig : Nat.digits 10 n with
    | nil => rw [hdig] at h0; simp at h0
    | cons d ds =>
      rw [hdig] at h0
      cases ds with
      | nil =>
        simp only [List.map_cons, List.map_nil, List.cons.injEq] at h0
        have hd10 : d < 10 :=
          Nat.digits_lt_base (by norm_num) (by rw [hdig]; simp : d ∈ Nat.digits 10 n)
        have hd0 : d = 0 := by
          have := congrArg charToDecDigit h0.1
          rwa [charToDecDigit_decDigitChar hd10] at this
        simp [hd0]
      | cons d2 ds2 => simp at h0
  have := Nat.ofDigits_digits 10 n
  rw [hdig0] at this
  simpa [Nat.ofDigits] using this.symm

lemma natToString_inj {m n : Nat} (h : natToString m = natToString n) : m = n := by
  unfold natToString at h
  by_cases hm : m = 0 <;> by_cases hn : n = 0
  · omega
  · exfalso
    rw [if_pos hm, if_neg hn] at h
    have hdata := congrArg String.data h
    simp only [String.data] at hdata
    exact hn (eq_zero_of_digits_repr hdata.symm)
  · exfalso
    rw [if_neg hm, if_pos hn] at h
    have hdata := congrArg String.data h
    simp only [String.data] at hdata
    exact hm (eq_zero_of_digits_repr hdata)
  · rw [if_neg hm, if_neg hn] at h
    have hdata := congrArg String.data h
    simp only [String.data] at hdata
    have hrev := congrArg List.reverse hdata
    simp only [List.reverse_reverse] at hrev
    have := map_decDigitChar_inj
      (fun d hd => Nat.digits_lt_base (by norm_num) hd)
      (fun d hd => Nat.digits_lt_base (by norm_num) hd) hrev
    exact Nat.digits_inj_iff.mp this

/-- An outpoint: transaction id plus output index. -/
structure Outpoint where
  txid : String
  vout : Nat
deriving DecidableEq, Repr

/-- Embedding of `toStringOutpoint` (part_001): the template literal
producing txid, a colon, and the decimal vout. -/
def toStringOutpoint (o : Outpoint) : String :=
  o.txid ++ ":" ++ natToString o.vout

/-- A character is a lowercase hexadecimal digit. -/
def isHexChar (c : Char) : Bool :=
  ('0' ≤ c && c ≤ '9') || ('a' ≤ c && c ≤ 'f')

/-- A string is a 64-character lowercase hexadecimal transaction id. -/
def isHex64 (s : String) : Bool :=
  s.length = 64 && s.data.all isHexChar

lemma toStringOutpoint_inj {o₁ o₂ : Outpoint}
    (h₁ : o₁.txid.length = 64) (h₂ : o₂.txid.length = 64)
    (h : toStringOutpoint o₁ = toStringOutpoint o₂) : o₁ = o₂ := by
  unfold toStringOutpoint at h
  have hdata := congrArg String.data h
  rw [String.data_append, String.data_append, String.data_append, String.data_append] at hdata
  rw [List.append_assoc, List.append_assoc] at hdata
  have hlen : o₁.txid.data.length = o₂.txid.data.length := by
    have e₁ : o₁.txid.data.length = o₁.txid.length := rfl
    have e₂ : o₂.txid.data.length = o₂.txid.length := rfl
    rw [e₁, e₂, h₁, h₂]
  obtain ⟨htxid, hrest⟩ := List.append_inj hdata hlen
  have hvout : natToString o₁.vout = natToString o₂.vout := by
    apply String.ext
    have := List.append_inj hrest (rfl : (":".data).length = (":".data).length)
    exact this.2
  obtain ⟨t₁, v₁⟩ := o₁
  obtain ⟨t₂, v₂⟩ := o₂
  simp only [Outpoint.mk.injEq]
  exact ⟨String.ext htxid, natToString_inj hvout⟩

end Marina

/-- C9: `toStringOutpoint` is a total deterministic function producing the
string txid, colon, decimal vout, and on outpoints whose txid is a
64-hex-character string it is injective: two such outpoints are equal if and
only if their key strings are equal. -/
theorem C9_toStringOutpoint_canonical (o₁ o₂ : Marina.Outpoint)
    (h₁ : Marina.isHex64 o₁.txid = true) (h₂ : Marina.isHex64 o₂.txid = true) :
    Marina.toStringOutpoint o₁ = o₁.txid ++ ":" ++ Marina.natToString o₁.vout ∧
    (o₁ = o₂ ↔ Marina.toStringOutpoint o₁ = Marina.toStringOutpoint o₂) := by
  refine ⟨rfl, ⟨fun he => he ▸ rfl, fun he => ?_⟩⟩
  have hl₁ : o₁.txid.length = 64 := by
    have := (Bool.and_eq_true _ _).mp h₁ |>.1
    simpa [Marina.isHex64] using this
  have hl₂ : o₂.txid.length = 64 := by
    have := (Bool.and_eq_true _ _).mp h₂ |>.1
    simpa [Marina.isHex64] using this
  exact Marina.toStringOutpoint_inj hl₁ hl₂ he

namespace Marina

/-- A raw output as fetched from the explorer (backend.ts pipeline):
outpoint data plus whether the output is confidential (blinded as fetched). -/
structure RawUtxo where
  txid : String
  vout : Nat
  confidential : Bool
deriving DecidableEq, Repr

/-- Outpoint key of a fetched output, as `toStringOutpoint(utxo)` computes it. -/
def utxoKey (u : RawUtxo) : String :=
  toStringOutpoint ⟨u.txid, u.vout⟩

/-- Key set of the previously tracked UTXO map (`utxosMap` in the thunk):
its keys are the stringified outpoints of the stored outputs. -/
def prevKeys (prev : List Outpoint) : List String :=
  prev.map toStringOutpoint

/-- The skip predicate passed to `fetchAndUnblindUtxosGenerator`:
`utxosMap[toStringOutpoint(utxo)] !== undefined`. -/
def skipUtxo (prev : List Outpoint) (u : RawUtxo) : Bool :=
  (prevKeys prev).contains (utxoKey u)

/-- `skippedOutpoints`: the keys pushed by the skip predicate, one per
fetched output found in the current map. -/
def skippedOutpoints (prev : List Outpoint) (fetched : List RawUtxo) : List String :=
  (fetched.filter (skipUtxo prev)).map utxoKey

/-- Whether a fetched output is still blinded when it comes out of the
generator: a skipped output is yielded as fetched (blinded iff confidential),
a non-skipped confidential output is blinded iff the external unblinding
primitive (oracle `unblindOk`) fails on it. -/
def isBlindedAfterPipeline (unblindOk : RawUtxo → Bool) (prev : List Outpoint)
    (u : RawUtxo) : Bool :=
  u.confidential && (skipUtxo prev u || !unblindOk u)

/-- The outputs dispatched via `addUtxo`: the thunk dispatches exactly the
yielded outputs passing `!isBlindedUtxo(utxo)`. -/
def addedUtxos (unblindOk : RawUtxo → Bool) (prev : List Outpoint)
    (fetched : List RawUtxo) : List RawUtxo :=
  fetched.filter (fun u => !isBlindedAfterPipeline unblindOk prev u)

/-- The outpoints dispatched via `deleteUtxo`: every previously tracked
outpoint whose key was never pushed to `skippedOutpoints`. -/
def deletedOutpoints (prev : List Outpoint) (fetched : List RawUtxo) : List Outpoint :=
  prev.filter (fun op => !(skippedOutpoints prev fetched).contains (toStringOutpoint op))

/-- Applying the updater's diff to the previous key set: `addUtxo` dispatches
happen during iteration, `deleteUtxo` dispatches afterwards, so the final key
set is (previous keys plus added keys) minus deleted keys. -/
def applyDiffKeys (sKeys added deleted : List String) : List String :=
  (sKeys ++ added).filter (fun k => !deleted.contains k)

/-- Outpoint-key set of the tracked UTXO map after one updater cycle. -/
def updaterResultKeys (unblindOk : RawUtxo → Bool) (prev : List Outpoint)
    (fetched : List RawUtxo) : List String :=
  applyDiffKeys (prevKeys prev) ((addedUtxos unblindOk prev fetched).map utxoKey)
    ((deletedOutpoints prev fetched).map toStringOutpoint)

lemma contains_iff_mem {l : List String} {s : String} :
    l.contains s = true ↔ s ∈ l := by
  induction l with
  | nil => simp
  | cons a t ih => simp [List.contains, List.elem_cons]

/-- A concrete 64-hex transaction id for witnesses. -/
def txidA : String := "aaaaaaaaaaaaaaaaaaaaaaaaaaaaaaaaaaaaaaaaaaaaaaaaaaaaaaaaaaaaaaaa"

/-- A second concrete 64-hex transaction id, distinct from `txidA`. -/
def txidB : String := "bbbbbbbbbbbbbbbbbbbbbbbbbbbbbbbbbbbbbbbbbbbbbbbbbbbbbbbbbbbbbbbb"

/-- A confidential output failing to unblind, never previously tracked:
the concrete input refuting the round-trip claim. -/
def blindedFreshUtxo : RawUtxo := ⟨txidA, 0, true⟩

/-- Unblinding oracle that always fails. -/
def neverUnblind : RawUtxo → Bool := fun _ => false

/-- Unblinding oracle that always succeeds. -/
def alwaysUnblind : RawUtxo → Bool := fun _ => true

lemma contains_eq_false_iff {l : List String} {s : String} :
    l.contains s = false ↔ s ∉ l := by
  rw [← contains_iff_mem]
  cases h : l.contains s <;> simp

lemma mem_skippedOutpoints {prev : List Outpoint} {fetched : List RawUtxo} {k : String} :
    k ∈ skippedOutpoints prev fetched ↔
      ∃ u ∈ fetched, skipUtxo prev u = true ∧ utxoKey u = k := by
  simp only [skippedOutpoints, List.mem_map, List.mem_filter]
  constructor
  · rintro ⟨u, ⟨hu, hs⟩, hk⟩
    exact ⟨u, hu, hs, hk⟩
  · rintro ⟨u, hu, hs, hk⟩
    exact ⟨u, ⟨hu, hs⟩, hk⟩

lemma mem_deletedOutpoints {prev : List Outpoint} {fetched : List RawUtxo} {op : Outpoint} :
    op ∈ deletedOutpoints prev fetched ↔
      op ∈ prev ∧ toStringOutpoint op ∉ skippedOutpoints prev fetched := by
  simp only [deletedOutpoints, List.mem_filter, Bool.not_eq_true', contains_eq_false_iff]

end Marina

/-- C9 witness: the theorem applied at two concrete 64-hex outpoints. -/
theorem C9_toStringOutpoint_canonical_witness :
    Marina.toStringOutpoint
        ⟨"aaaaaaaaaaaaaaaaaaaaaaaaaaaaaaaaaaaaaaaaaaaaaaaaaaaaaaaaaaaaaaaa", 7⟩ =
      "aaaaaaaaaaaaaaaaaaaaaaaaaaaaaaaaaaaaaaaaaaaaaaaaaaaaaaaaaaaaaaaa" ++ ":" ++
        Marina.natToString 7 ∧
    ((⟨"aaaaaaaaaaaaaaaaaaaaaaaaaaaaaaaaaaaaaaaaaaaaaaaaaaaaaaaaaaaaaaaa", 7⟩ :
        Marina.Outpoint) =
        ⟨"bbbbbbbbbbbbbbbbbbbbbbbbbbbbbbbbbbbbbbbbbbbbbbbbbbbbbbbbbbbbbbbb", 7⟩ ↔
      Marina.toStringOutpoint
          ⟨"aaaaaaaaaaaaaaaaaaaaaaaaaaaaaaaaaaaaaaaaaaaaaaaaaaaaaaaaaaaaaaaa", 7⟩ =
        Marina.toStringOutpoint
          ⟨"bbbbbbbbbbbbbbbbbbbbbbbbbbbbbbbbbbbbbbbbbbbbbbbbbbbbbbbbbbbbbbbb", 7⟩) :=
  C9_toStringOutpoint_canonical _ _ (by decide) (by decide)

/-- C1 counterexample: previous set empty, fetch returns one confidential
output whose unblinding fails. The fetched key set contains its key, but the
updated tracked set does not — the output is dropped (dispatched via neither
addUtxo nor kept), so the round-trip fails and the blinded entry is not added. -/
theorem C1_counterexample :
    Marina.utxoKey Marina.blindedFreshUtxo ∈
        ([Marina.blindedFreshUtxo].map Marina.utxoKey) ∧
    Marina.utxoKey Marina.blindedFreshUtxo ∉
        Marina.updaterResultKeys Marina.neverUnblind [] [Marina.blindedFreshUtxo] := by
  constructor
  · simp
  · intro h
    simp [Marina.updaterResultKeys, Marina.applyDiffKeys, Marina.addedUtxos,
      Marina.isBlindedAfterPipeline, Marina.skipUtxo, Marina.prevKeys,
      Marina.blindedFreshUtxo, Marina.neverUnblind] at h

/-- C1 (amended): provided every fetched output is either previously
skip-matched or non-blinded after the pipeline, applying the updater's diff
(addUtxo dispatches, then deleteUtxo dispatches) to the previous set yields
exactly the outpoint-key set of the fetch result. A never-skip-matched
fetched output whose unblinding fails is NOT added as a blinded entry: it is
dropped from the tracked set (see the counterexample). -/
theorem C1_roundTrip_amended (unblindOk : Marina.RawUtxo → Bool)
    (prev : List Marina.Outpoint) (fetched : List Marina.RawUtxo)
    (h : ∀ u ∈ fetched, Marina.skipUtxo prev u = true ∨
      Marina.isBlindedAfterPipeline unblindOk prev u = false) :
    ∀ k, k ∈ Marina.updaterResultKeys unblindOk prev fetched ↔
      k ∈ fetched.map Marina.utxoKey := by
  intro k
  unfold Marina.updaterResultKeys Marina.applyDiffKeys
  rw [List.mem_filter]
  constructor
  · rintro ⟨hmem, hnotdel⟩
    have hnd : k ∉ (Marina.deletedOutpoints prev fetched).map Marina.toStringOutpoint := by
      rw [Bool.not_eq_true', Marina.contains_eq_false_iff] at hnotdel
      exact hnotdel
    rcases List.mem_append.mp hmem with hp | ha
    · rcases List.mem_map.mp hp with ⟨op, hop, hk⟩
      by_contra hnf
      have hskip : Marina.toStringOutpoint op ∉ Marina.skippedOutpoints prev fetched := by
        intro hs
        rcases Marina.mem_skippedOutpoints.mp hs with ⟨u, hu, _, hku⟩
        exact hnf (List.mem_map.mpr ⟨u, hu, by rw [hku, hk]⟩)
      have hdel : op ∈ Marina.deletedOutpoints prev fetched :=
        Marina.mem_deletedOutpoints.mpr ⟨hop, hskip⟩
      exact hnd (List.mem_map.mpr ⟨op, hdel, hk⟩)
    · rcases List.mem_map.mp ha with ⟨u, hu, hk⟩
      exact List.mem_map.mpr ⟨u, (List.mem_filter.mp hu).1, hk⟩
  · intro hf
    rcases List.mem_map.mp hf with ⟨u, hu, hk⟩
    refine ⟨?_, ?_⟩
    · cases hsk : Marina.skipUtxo prev u with
      | true =>
        have hp : k ∈ Marina.prevKeys prev := by
          have := Marina.contains_iff_mem.mp hsk
          rwa [hk] at this
        exact List.mem_append.mpr (Or.inl hp)
      | false =>
        have hbl : Marina.isBlindedAfterPipeline unblindOk prev u = false := by
          rcases h u hu with h1 | h1
          · rw [hsk] at h1; exact absurd h1 (by simp)
          · exact h1
        have hadd : u ∈ Marina.addedUtxos unblindOk prev fetched :=
          List.mem_filter.mpr ⟨hu, by rw [hbl]; rfl⟩
        exact List.mem_append.mpr (Or.inr (List.mem_map.mpr ⟨u, hadd, hk⟩))
    · rw [Bool.not_eq_true', Marina.contains_eq_false_iff]
      intro hkd
      rcases List.mem_map.mp hkd with ⟨op, hopdel, hkop⟩
      rcases Marina.mem_deletedOutpoints.mp hopdel with ⟨hopprev, hops⟩
      apply hops
      rw [hkop]
      refine Marina.mem_skippedOutpoints.mpr ⟨u, hu, ?_, hk⟩
      apply Marina.contains_iff_mem.mpr
      rw [hk, ← hkop]
      exact List.mem_map.mpr ⟨op, hopprev, rfl⟩

/-- C1 witness: the amended round-trip applied with empty previous set and a
single fetched output that unblinds successfully. -/
theorem C1_roundTrip_amended_witness :
    (∀ u ∈ [Marina.blindedFreshUtxo], Marina.skipUtxo [] u = true ∨
      Marina.isBlindedAfterPipeline Marina.alwaysUnblind [] u = false) ∧
    (Marina.utxoKey Marina.blindedFreshUtxo ∈
        Marina.updaterResultKeys Marina.alwaysUnblind [] [Marina.blindedFreshUtxo] ↔
      Marina.utxoKey Marina.blindedFreshUtxo ∈
        [Marina.blindedFreshUtxo].map Marina.utxoKey) :=
  ⟨by decide, C1_roundTrip_amended Marina.alwaysUnblind [] [Marina.blindedFreshUtxo]
    (by decide) (Marina.utxoKey Marina.blindedFreshUtxo)⟩

/-- C3: a previously tracked outpoint is dispatched via deleteUtxo exactly
when no output fetched in the current cycle has the same outpoint key (it was
never skip-matched); and in the special case of one tracked outpoint with an
empty fetch result, exactly that outpoint is removed and nothing is added. -/
theorem C3_removal_rule (prev : List Marina.Outpoint) (fetched : List Marina.RawUtxo)
    (unblindOk : Marina.RawUtxo → Bool) (X : Marina.Outpoint) :
    (∀ op ∈ prev, (op ∈ Marina.deletedOutpoints prev fetched ↔
      ∀ u ∈ fetched, Marina.utxoKey u ≠ Marina.toStringOutpoint op)) ∧
    (Marina.deletedOutpoints [X] [] = [X] ∧ Marina.addedUtxos unblindOk [X] [] = []) := by
  refine ⟨fun op hop => ?_, rfl, rfl⟩
  rw [Marina.mem_deletedOutpoints]
  constructor
  · rintro ⟨-, hns⟩ u hu hku
    exact hns (Marina.mem_skippedOutpoints.mpr ⟨u, hu, by
      apply Marina.contains_iff_mem.mpr
      rw [hku]
      exact List.mem_map.mpr ⟨op, hop, rfl⟩, hku⟩)
  · intro hnone
    refine ⟨hop, fun hs => ?_⟩
    rcases Marina.mem_skippedOutpoints.mp hs with ⟨u, hu, -, hku⟩
    exact hnone u hu hku

/-- C3 witness: the removal rule applied with tracked set containing one
concrete outpoint and an empty fetch result. -/
theorem C3_removal_rule_witness :
    ((⟨Marina.txidA, 0⟩ : Marina.Outpoint) ∈
        Marina.deletedOutpoints [⟨Marina.txidA, 0⟩] [] ↔
      ∀ u ∈ ([] : List Marina.RawUtxo),
        Marina.utxoKey u ≠ Marina.toStringOutpoint ⟨Marina.txidA, 0⟩) ∧
    (Marina.deletedOutpoints [⟨Marina.txidA, 0⟩] [] = [⟨Marina.txidA, 0⟩] ∧
      Marina.addedUtxos Marina.neverUnblind [⟨Marina.txidA, 0⟩] [] = []) := by
  have h := C3_removal_rule [⟨Marina.txidA, 0⟩] [] Marina.neverUnblind ⟨Marina.txidA, 0⟩
  exact ⟨h.1 ⟨Marina.txidA, 0⟩ (by decide), h.2⟩

namespace Marina

/-- An entry of the wallet UTXO map as `getAllBalances` reads it
(`UtxoInterface`): `asset`/`value` are absent when unblinding failed or was
skipped. -/
structure StoredUtxo where
  txid : String
  vout : Nat
  asset : Option String
  value : Option Nat
deriving DecidableEq, Repr

/-- JavaScript truthiness test `!curr.asset`: true for an absent asset and
for the empty string. -/
def jsFalsyAsset : Option String → Bool
  | none => true
  | some s => s == ""

/-- JavaScript truthiness test `!curr.value`: true for an absent value and
for the number 0. -/
def jsFalsyValue : Option Nat → Bool
  | none => true
  | some n => n == 0

/-- Template-literal rendering of a possibly-undefined string field. -/
def renderAsset : Option String → String
  | none => "undefined"
  | some s => s

/-- Template-literal rendering of a possibly-undefined numeric field. -/
def renderValue : Option Nat → String
  | none => "undefined"
  | some n => natToString n

/-- The message of the Error passed to `onError` for a map entry with
missing data: it reports the asset and value fields of the entry. -/
def missingInfoMsg (u : StoredUtxo) : String :=
  "Missing utxo info. Asset: " ++ renderAsset u.asset ++ ", Value: " ++ renderValue u.value

/-- JavaScript object spread update `acc` with key `k` set to `v`: the value
at an existing key is replaced in place, a new key is appended. -/
def setAssetBalance (acc : List (String × Nat)) (k : String) (v : Nat) : List (String × Nat) :=
  if acc.any (fun p => p.fst == k) then
    acc.map (fun p => if p.fst == k then (k, v) else p)
  else acc ++ [(k, v)]

/-- One step of the reduce in `getAllBalances`. The state is the balance
accumulator plus the list of error messages emitted so far; each recorded
message stands for one WALLET_GET_ALL_BALANCES_FAILURE dispatch together
with one `onError` call naming that message. -/
def balancesStep (st : List (String × Nat) × List String) (u : StoredUtxo) :
    List (String × Nat) × List String :=
  if jsFalsyAsset u.asset || jsFalsyValue u.value then
    (st.1, st.2 ++ [missingInfoMsg u])
  else
    (setAssetBalance st.1 (u.asset.getD "") (u.value.getD 0), st.2)

/-- Embedding of `getAllBalances` (part_000): reduce over the utxo map's
values, returning the balances passed to `onSuccess` and the emitted error
messages. -/
def getAllBalances (utxos : List StoredUtxo) : List (String × Nat) × List String :=
  utxos.foldl balancesStep ([], [])

/-- Balance recorded for an asset hash, if any. -/
def lookupBalance (bal : List (String × Nat)) (k : String) : Option Nat :=
  (bal.find? (fun p => p.fst == k)).map (fun p => p.snd)

lemma balances_fst_indep (l : List StoredUtxo) (b : List (String × Nat))
    (e e₂ : List String) :
    (l.foldl balancesStep (b, e)).1 = (l.foldl balancesStep (b, e₂)).1 := by
  induction l generalizing b e e₂ with
  | nil => rfl
  | cons u t ih =>
    simp only [List.foldl_cons]
    unfold balancesStep
    by_cases hc : (jsFalsyAsset u.asset || jsFalsyValue u.value) = true
    · rw [if_pos hc, if_pos hc]
      exact ih b _ _
    · rw [if_neg hc, if_neg hc]
      exact ih _ _ _

lemma balancesStep_missing {u : StoredUtxo} (b : List (String × Nat)) (e : List String)
    (hc : (jsFalsyAsset u.asset || jsFalsyValue u.value) = true) :
    balancesStep (b, e) u = (b, e ++ [missingInfoMsg u]) := by
  unfold balancesStep
  rw [if_pos hc]

lemma balancesStep_good {u : StoredUtxo} (b : List (String × Nat)) (e : List String)
    (hc : ¬ (jsFalsyAsset u.asset || jsFalsyValue u.value) = true) :
    balancesStep (b, e) u = (setAssetBalance b (u.asset.getD "") (u.value.getD 0), e) := by
  unfold balancesStep
  rw [if_neg hc]

lemma errors_grow (l : List StoredUtxo) (b : List (String × Nat)) (e : List String) :
    ∃ t, (l.foldl balancesStep (b, e)).2 = e ++ t := by
  induction l generalizing b e with
  | nil => exact ⟨[], by simp⟩
  | cons u t ih =>
    simp only [List.foldl_cons]
    by_cases hc : (jsFalsyAsset u.asset || jsFalsyValue u.value) = true
    · rw [balancesStep_missing b e hc]
      rcases ih b (e ++ [missingInfoMsg u]) with ⟨t₂, ht⟩
      exact ⟨[missingInfoMsg u] ++ t₂, by rw [ht, List.append_assoc]⟩
    · rw [balancesStep_good b e hc]
      exact ih _ e

lemma getAllBalances_skip_entry (pre post : List StoredUtxo) (u : StoredUtxo)
    (hcond : (jsFalsyAsset u.asset || jsFalsyValue u.value) = true) :
    (getAllBalances (pre ++ u :: post)).1 = (getAllBalances (pre ++ post)).1 ∧
    missingInfoMsg u ∈ (getAllBalances (pre ++ u :: post)).2 := by
  unfold getAllBalances
  rw [List.foldl_append, List.foldl_append, List.foldl_cons]
  rcases hst : pre.foldl balancesStep ([], []) with ⟨b, e⟩
  have hstep : balancesStep (b, e) u = (b, e ++ [missingInfoMsg u]) := by
    unfold balancesStep
    rw [if_pos hcond]
  rw [hstep]
  constructor
  · exact balances_fst_indep post b _ _
  · rcases errors_grow post b (e ++ [missingInfoMsg u]) with ⟨t, ht⟩
    rw [ht, List.append_assoc]
    simp

/-- Failing input for the balance-summing claim: two unblinded outputs of
the same asset with values 100 and 50. -/
def sameAssetUtxo1 : StoredUtxo := ⟨txidA, 0, some txidB, some 100⟩

/-- Second output of the same asset, value 50. -/
def sameAssetUtxo2 : StoredUtxo := ⟨txidA, 1, some txidB, some 50⟩

/-- Entry with a defined asset and value equal to zero. -/
def zeroValueUtxo : StoredUtxo := ⟨txidA, 0, some txidB, some 0⟩

end Marina

/-- C2 (code bug evaluation): on two unblinded outputs of the same asset
with values 100 and 50, `getAllBalances` reports 50 — the object-spread
`acc` update overwrites the asset's entry instead of summing, so the result
is the last value, not the sum 150. -/
theorem C2_balances_last_value_wins :
    Marina.lookupBalance
        (Marina.getAllBalances [Marina.sameAssetUtxo1, Marina.sameAssetUtxo2]).1
        Marina.txidB = some 50 ∧
    some (50 : Nat) ≠ some (100 + 50) := by
  constructor
  · rfl
  · decide

/-- C5 counterexample: two map entries at different outpoints, both missing
asset and value, produce byte-identical failure messages, and the message is
even shorter than a txid — so the failure signal surfaced to the caller
cannot name the offending outpoint. -/
theorem C5_counterexample :
    Marina.missingInfoMsg ⟨Marina.txidA, 0, none, none⟩ =
      Marina.missingInfoMsg ⟨Marina.txidB, 1, none, none⟩ ∧
    (⟨Marina.txidA, 0, none, none⟩ : Marina.StoredUtxo) ≠ ⟨Marina.txidB, 1, none, none⟩ ∧
    (Marina.missingInfoMsg ⟨Marina.txidA, 0, none, none⟩).length < Marina.txidA.length := by
  refine ⟨rfl, ?_, by decide⟩
  intro h
  have := congrArg Marina.StoredUtxo.vout h
  simp at this

/-- C5 (amended): an entry whose asset or value is undefined is excluded
from the returned balance mapping (never treated as zero) and surfaces an
explicit failure signal to the caller reporting the entry's asset and value
fields — but the signal does not identify the offending outpoint. -/
theorem C5_missing_data_amended (pre post : List Marina.StoredUtxo)
    (u : Marina.StoredUtxo) (h : u.asset = none ∨ u.value = none) :
    (Marina.getAllBalances (pre ++ u :: post)).1 =
      (Marina.getAllBalances (pre ++ post)).1 ∧
    Marina.missingInfoMsg u ∈ (Marina.getAllBalances (pre ++ u :: post)).2 := by
  apply Marina.getAllBalances_skip_entry
  rcases h with h | h <;> rw [h]
  · rfl
  · simp [Marina.jsFalsyValue]

/-- C5 witness: the amended theorem applied to a one-entry map whose entry
has no asset and no value. -/
theorem C5_missing_data_amended_witness :
    ((⟨Marina.txidA, 0, none, none⟩ : Marina.StoredUtxo).asset = none ∨
      (⟨Marina.txidA, 0, none, none⟩ : Marina.StoredUtxo).value = none) ∧
    ((Marina.getAllBalances [⟨Marina.txidA, 0, none, none⟩]).1 =
        (Marina.getAllBalances []).1 ∧
      Marina.missingInfoMsg ⟨Marina.txidA, 0, none, none⟩ ∈
        (Marina.getAllBalances [⟨Marina.txidA, 0, none, none⟩]).2) :=
  ⟨Or.inl rfl, C5_missing_data_amended [] [] ⟨Marina.txidA, 0, none, none⟩ (Or.inl rfl)⟩

/-- C10: an entry with a defined asset and value 0 takes the missing-data
branch — the failure signal is emitted and the entry is excluded from the
returned balances, with the same balance result as if the value were
undefined — because `!curr.value` uses JavaScript falsiness (0 is falsy). -/
theorem C10_zero_value_falsiness (pre post : List Marina.StoredUtxo)
    (u : Marina.StoredUtxo) (a : String) (ha : u.asset = some a)
    (hv : u.value = some 0) :
    (Marina.getAllBalances (pre ++ u :: post)).1 =
      (Marina.getAllBalances (pre ++ post)).1 ∧
    Marina.missingInfoMsg u ∈ (Marina.getAllBalances (pre ++ u :: post)).2 ∧
    (Marina.getAllBalances (pre ++ u :: post)).1 =
      (Marina.getAllBalances (pre ++ ⟨u.txid, u.vout, u.asset, none⟩ :: post)).1 := by
  have hcond : (Marina.jsFalsyAsset u.asset || Marina.jsFalsyValue u.value) = true := by
    rw [hv]
    simp [Marina.jsFalsyValue]
  have h₁ := Marina.getAllBalances_skip_entry pre post u hcond
  have h₂ := Marina.getAllBalances_skip_entry pre post ⟨u.txid, u.vout, u.asset, none⟩ (by
    simp [Marina.jsFalsyValue])
  exact ⟨h₁.1, h₁.2, by rw [h₁.1, h₂.1]⟩

/-- C10 witness: the theorem applied to a one-entry map whose entry carries
a defined asset and value 0. -/
theorem C10_zero_value_falsiness_witness :
    (Marina.zeroValueUtxo.asset = some Marina.txidB ∧
      Marina.zeroValueUtxo.value = some 0) ∧
    ((Marina.getAllBalances [Marina.zeroValueUtxo]).1 =
        (Marina.getAllBalances []).1 ∧
      Marina.missingInfoMsg Marina.zeroValueUtxo ∈
        (Marina.getAllBalances [Marina.zeroValueUtxo]).2 ∧
      (Marina.getAllBalances [Marina.zeroValueUtxo]).1 =
        (Marina.getAllBalances
          [⟨Marina.zeroValueUtxo.txid, Marina.zeroValueUtxo.vout,
            Marina.zeroValueUtxo.asset, none⟩]).1) :=
  ⟨⟨rfl, rfl⟩,
    C10_zero_value_falsiness [] [] Marina.zeroValueUtxo Marina.txidB rfl rfl⟩

namespace Marina

/-- Embedding of `compareUtxos` (part_000): false on a size mismatch,
otherwise every outpoint key of the store must occur among the fetched
outputs by txid and vout equality. -/
def compareUtxos (store : List Outpoint) (fetched : List StoredUtxo) : Bool :=
  if store.length ≠ fetched.length then false
  else store.all (fun op => fetched.any (fun u => u.txid == op.txid && u.vout == op.vout))

/-- Embedding of the persistence decision of `setUtxos` (part_000): the
fetched per-address output lists are flattened; when `compareUtxos` holds
nothing is written or dispatched (`none`), otherwise each output is run
through `tryToUnblindUtxo` (oracle `tryUnblind`) and the utxo map written to
the repository and dispatched is returned (`some`). A JavaScript Map keyed
by fresh `toOutpoint` objects accumulates one entry per fetched output, in
order, which the association list mirrors. -/
def setUtxosModel (store : List Outpoint) (fetchedPerAddr : List (List StoredUtxo))
    (tryUnblind : StoredUtxo → StoredUtxo) : Option (List (Outpoint × StoredUtxo)) :=
  if compareUtxos store (fetchedPerAddr.foldl (fun acc l => acc ++ l) []) then none
  else some
    (((fetchedPerAddr.map (fun l => l.map tryUnblind)).foldl (fun acc l => acc ++ l) []).map
      (fun u => (⟨u.txid, u.vout⟩, u)))

end Marina

/-- C4: `compareUtxos` returns true exactly when the store's size equals the
fetched list's length and every outpoint key of the store occurs, by txid and
vout equality, among the fetched outputs; and whenever it returns true,
`setUtxos` performs no repository write and dispatches no new utxo map. -/
theorem C4_compare_short_circuit (store : List Marina.Outpoint)
    (fetched : List Marina.StoredUtxo)
    (fetchedPerAddr : List (List Marina.StoredUtxo))
    (tryUnblind : Marina.StoredUtxo → Marina.StoredUtxo) :
    (Marina.compareUtxos store fetched = true ↔
      (store.length = fetched.length ∧
        ∀ op ∈ store, ∃ u ∈ fetched, u.txid = op.txid ∧ u.vout = op.vout)) ∧
    (Marina.compareUtxos store (fetchedPerAddr.foldl (fun acc l => acc ++ l) []) = true →
      Marina.setUtxosModel store fetchedPerAddr tryUnblind = none) := by
  constructor
  · unfold Marina.compareUtxos
    by_cases hl : store.length = fetched.length
    · rw [if_neg (not_not_intro hl)]
      simp only [List.all_eq_true, List.any_eq_true, Bool.and_eq_true, beq_iff_eq]
      exact ⟨fun h => ⟨hl, fun op hop => h op hop⟩, fun h => h.2⟩
    · rw [if_pos hl]
      constructor
      · intro h
        exact absurd h (by decide)
      · intro h
        exact absurd h.1 hl
  · intro h
    unfold Marina.setUtxosModel
    rw [if_pos h]

/-- C4 witness: the theorem applied to the empty store and an empty fetch. -/
theorem C4_compare_short_circuit_witness :
    Marina.compareUtxos [] [] = true ∧ Marina.setUtxosModel [] [] id = none :=
  ⟨by decide, (C4_compare_short_circuit [] [] [] id).2 (by decide)⟩

namespace Marina

/-- A transaction input as parsed by `Transaction.fromHex`: the referenced
previous-output hash (byte list) and output index. -/
structure TxInput where
  hash : List Nat
  index : Nat
deriving DecidableEq, Repr

/-- A known coin (`UnblindedOutput`) held by the wallet. -/
structure CoinUtxo where
  txid : String
  vout : Nat
  asset : String
  value : Nat
deriving DecidableEq, Repr

/-- Hexadecimal digit to its lowercase character. -/
def hexDigitChar : Nat → Char
  | 0 => '0'
  | 1 => '1'
  | 2 => '2'
  | 3 => '3'
  | 4 => '4'
  | 5 => '5'
  | 6 => '6'
  | 7 => '7'
  | 8 => '8'
  | 9 => '9'
  | 10 => 'a'
  | 11 => 'b'
  | 12 => 'c'
  | 13 => 'd'
  | 14 => 'e'
  | 15 => 'f'
  | _ => 'x'

/-- A byte rendered as two lowercase hexadecimal characters, high nibble
first, as `Buffer.toString` with hex encoding produces. -/
def byteToHex (b : Nat) : String :=
  String.mk [hexDigitChar (b / 16 % 16), hexDigitChar (b % 16)]

/-- Hex encoding of a byte list. -/
def hexEncode (bytes : List Nat) : String :=
  String.join (bytes.map byteToHex)

/-- The txid an input references: `hash.slice().reverse().toString('hex')`. -/
def inputTxid (i : TxInput) : String :=
  hexEncode i.hash.reverse

/-- Embedding of the input loop of `getUtxosFromTx` (part_001): for each
input, the first known coin with matching txid and vout is pushed (the inner
loop breaks at the first match). -/
def selectedUtxos : List TxInput → List CoinUtxo → List CoinUtxo
  | [], _ => []
  | i :: rest, coins =>
    (match coins.find? (fun c => c.txid == inputTxid i && c.vout == i.index) with
     | some c => [c]
     | none => []) ++ selectedUtxos rest coins

/-- The wallet's UTXO set holds at most one coin per (txid, vout). -/
def coinKeysDistinct (coins : List CoinUtxo) : Prop :=
  List.Pairwise (fun a b => a.txid ≠ b.txid ∨ a.vout ≠ b.vout) coins

lemma coins_key_unique {coins : List CoinUtxo} (hdist : coinKeysDistinct coins)
    {a b : CoinUtxo} (ha : a ∈ coins) (hb : b ∈ coins)
    (ht : a.txid = b.txid) (hv : a.vout = b.vout) : a = b := by
  by_contra hne
  have hsym : Symmetric (fun a b : CoinUtxo => a.txid ≠ b.txid ∨ a.vout ≠ b.vout) := by
    intro x y hxy
    rcases hxy with h | h
    · exact Or.inl (fun he => h he.symm)
    · exact Or.inr (fun he => h he.symm)
  rcases List.Pairwise.forall hsym hdist ha hb hne with h | h
  · exact h ht
  · exact h hv

end Marina

/-- C6: under the wallet invariant that known coins have pairwise distinct
(txid, vout), every input whose byte-reversed hash hex-encodes to a known
coin's txid with matching vout puts that coin into `selectedUtxos`, and a
coin matching no input never appears there. -/
theorem C6_spent_input_selection (ins : List Marina.TxInput)
    (coins : List Marina.CoinUtxo) (hdist : Marina.coinKeysDistinct coins)
    (c : Marina.CoinUtxo) (hc : c ∈ coins) :
    (∀ i ∈ ins, Marina.hexEncode i.hash.reverse = c.txid → i.index = c.vout →
      c ∈ Marina.selectedUtxos ins coins) ∧
    ((∀ i ∈ ins, ¬(Marina.hexEncode i.hash.reverse = c.txid ∧ i.index = c.vout)) →
      c ∉ Marina.selectedUtxos ins coins) := by
  constructor
  · intro i hi htxid hvout
    induction ins with
    | nil => cases hi
    | cons j rest ih =>
      unfold Marina.selectedUtxos
      rcases List.mem_cons.mp hi with hij | hir
      · subst hij
        have hpc : (fun c₂ : Marina.CoinUtxo =>
            c₂.txid == Marina.inputTxid i && c₂.vout == i.index) c = true := by
          simp only [Bool.and_eq_true, beq_iff_eq]
          exact ⟨htxid.symm, hvout.symm⟩
        cases hfind : coins.find? (fun c₂ =>
            c₂.txid == Marina.inputTxid i && c₂.vout == i.index) with
        | none =>
          exact absurd hpc (List.find?_eq_none.mp hfind c hc)
        | some c₀ =>
          have hp₀ := List.find?_some hfind
          have hm₀ := List.mem_of_find?_eq_some hfind
          simp only [Bool.and_eq_true, beq_iff_eq] at hp₀
          have : c₀ = c := Marina.coins_key_unique hdist hm₀ hc
            (by rw [hp₀.1]; exact htxid) (by rw [hp₀.2, hvout])
          subst this
          exact List.mem_append.mpr (Or.inl (by simp))
      · exact List.mem_append.mpr (Or.inr (ih hir))
  · intro hnone
    induction ins with
    | nil => simp [Marina.selectedUtxos]
    | cons j rest ih =>
      unfold Marina.selectedUtxos
      intro hmem
      rcases List.mem_append.mp hmem with hhd | htl
      · cases hfind : coins.find? (fun c₂ =>
            c₂.txid == Marina.inputTxid j && c₂.vout == j.index) with
        | none => rw [hfind] at hhd; cases hhd
        | some c₀ =>
          rw [hfind] at hhd
          have hp₀ := List.find?_some hfind
          simp only [Bool.and_eq_true, beq_iff_eq] at hp₀
          have hcc : c = c₀ := by
            rcases List.mem_singleton.mp hhd with h
            exact h
          apply hnone j (List.mem_cons_self j rest)
          rw [hcc]
          exact ⟨hp₀.1.symm, hp₀.2.symm⟩
      · exact ih (fun i hi => hnone i (List.mem_cons_of_mem j hi)) htl

/-- C6 witness: a one-input transaction spending the single known coin; the
input's reversed hash hex-encodes to the coin's txid. -/
theorem C6_spent_input_selection_witness :
    Marina.coinKeysDistinct [⟨Marina.hexEncode (List.replicate 32 170), 0, Marina.txidB, 1000⟩] ∧
    (⟨Marina.hexEncode (List.replicate 32 170), 0, Marina.txidB, 1000⟩ : Marina.CoinUtxo) ∈
      [⟨Marina.hexEncode (List.replicate 32 170), 0, Marina.txidB, 1000⟩] ∧
    Marina.hexEncode ((List.replicate 32 170) : List Nat).reverse =
      (⟨Marina.hexEncode (List.replicate 32 170), 0, Marina.txidB, 1000⟩ : Marina.CoinUtxo).txid ∧
    (⟨List.replicate 32 170, 0⟩ : Marina.TxInput) ∈ [(⟨List.replicate 32 170, 0⟩ : Marina.TxInput)] ∧
    (⟨Marina.hexEncode (List.replicate 32 170), 0, Marina.txidB, 1000⟩ : Marina.CoinUtxo) ∈
      Marina.selectedUtxos [⟨List.replicate 32 170, 0⟩]
        [⟨Marina.hexEncode (List.replicate 32 170), 0, Marina.txidB, 1000⟩] := by
  refine ⟨by simp [Marina.coinKeysDistinct], by decide, by decide, by decide, ?_⟩
  exact (C6_spent_input_selection [⟨List.replicate 32 170, 0⟩]
      [⟨Marina.hexEncode (List.replicate 32 170), 0, Marina.txidB, 1000⟩]
      (by simp [Marina.coinKeysDistinct]) _ (by decide)).1
    ⟨List.replicate 32 170, 0⟩ (by decide) (by decide) (by decide)

namespace Marina

/-- A wallet address as `identity.getAddresses()` returns it. -/
structure WalletAddr where
  confidentialAddress : String
  blindingPrivateKey : String
deriving DecidableEq, Repr

/-- A change-output candidate pushed by `getUtxosFromTx`. -/
structure UnconfirmedOut where
  txid : String
  vout : Nat
  blindPrivKey : String
deriving DecidableEq, Repr

/-- A transaction output: its destination script bytes. -/
structure TxOut where
  script : List Nat
deriving DecidableEq, Repr

/-- Embedding of the address-matching loop inside the per-output try block
of `getUtxosFromTx` (part_001). `fromConf` is `address.fromConfidential`
restricted to the unconfidential form; `none` models it throwing, which the
surrounding catch turns into abandoning this output (nothing was pushed
yet, since a push is immediately followed by break). -/
def matchAddrs (fromConf : String → Option String) (a txid : String) (vout : Nat) :
    List WalletAddr → List UnconfirmedOut
  | [] => []
  | addr :: rest =>
    match fromConf addr.confidentialAddress with
    | none => []
    | some unconf =>
      if a == unconf || a == addr.confidentialAddress then
        [⟨txid, vout, addr.blindingPrivateKey⟩]
      else matchAddrs fromConf a txid vout rest

/-- Per-output processing of `getUtxosFromTx`: `fromScript` is
`address.fromOutputScript` (`none` models it throwing, caught in place). -/
def processOutput (fromScript : List Nat → Option String)
    (fromConf : String → Option String) (addrs : List WalletAddr)
    (txid : String) (vout : Nat) (out : TxOut) : List UnconfirmedOut :=
  match fromScript out.script with
  | none => []
  | some a => matchAddrs fromConf a txid vout addrs

/-- The `changeUtxos` array built by the output loop of `getUtxosFromTx`:
the concatenation of every output's (independent) contribution, each output
processed at its index. -/
def changeUtxos (fromScript : List Nat → Option String)
    (fromConf : String → Option String) (addrs : List WalletAddr)
    (txid : String) (outs : List TxOut) : List UnconfirmedOut :=
  (outs.enum.map (fun p => processOutput fromScript fromConf addrs txid p.1 p.2)).join

lemma matchAddrs_eq_nil (fromConf : String → Option String) (a txid : String)
    (vout : Nat) (addrs : List WalletAddr)
    (h : ∀ addr ∈ addrs, ∀ u, fromConf addr.confidentialAddress = some u →
      a ≠ u ∧ a ≠ addr.confidentialAddress) :
    matchAddrs fromConf a txid vout addrs = [] := by
  induction addrs with
  | nil => rfl
  | cons addr rest ih =>
    unfold matchAddrs
    cases hfc : fromConf addr.confidentialAddress with
    | none => rfl
    | some u =>
      have hne := h addr (List.mem_cons_self addr rest) u hfc
      have hcond : ¬ ((a == u || a == addr.confidentialAddress) = true) := by
        simp only [Bool.or_eq_true, beq_iff_eq]
        rintro (h₁ | h₁)
        · exact hne.1 h₁
        · exact hne.2 h₁
      show (if a == u || a == addr.confidentialAddress then
        ([⟨txid, vout, addr.blindingPrivateKey⟩] : List UnconfirmedOut)
        else matchAddrs fromConf a txid vout rest) = []
      rw [if_neg hcond]
      exact ih (fun addr₂ h₂ => h addr₂ (List.mem_cons_of_mem addr h₂))

/-- Concrete script-to-address oracle that always fails. -/
def failScript : List Nat → Option String := fun _ => none

/-- Concrete confidential-to-unconfidential oracle that always fails. -/
def failConf : String → Option String := fun _ => none

/-- An address belonging to an external recipient. -/
def extAddr : String := "ex1extrecipient"

/-- Concrete script-to-address oracle returning an external address. -/
def extScript : List Nat → Option String := fun _ => some extAddr

/-- The unconfidential form of the wallet address. -/
def unconfAddr : String := "ert1unconf"

/-- Concrete oracle mapping every confidential address to `unconfAddr`. -/
def unconfOf : String → Option String := fun _ => some unconfAddr

/-- A concrete wallet address. -/
def walletAddr1 : WalletAddr := ⟨"el1walletconf", "blindkey1"⟩

end Marina

/-- C7: `getUtxosFromTx` output scanning is failure-isolated and total: an
output whose script cannot be converted to an address contributes nothing;
an output whose address matches no wallet address in either unconfidential
or confidential form (or whose matching aborts on an address-form failure)
contributes nothing; and the change list is exactly the union of the
per-output contributions at their indices, so the remaining outputs are
processed no matter which outputs fail. -/
theorem C7_change_output_isolation (fromScript : List Nat → Option String)
    (fromConf : String → Option String) (addrs : List Marina.WalletAddr)
    (txid : String) (outs : List Marina.TxOut) :
    (∀ (vout : Nat) (out : Marina.TxOut), fromScript out.script = none →
      Marina.processOutput fromScript fromConf addrs txid vout out = []) ∧
    (∀ (vout : Nat) (out : Marina.TxOut) (a : String), fromScript out.script = some a →
      (∀ addr ∈ addrs, ∀ u, fromConf addr.confidentialAddress = some u →
        a ≠ u ∧ a ≠ addr.confidentialAddress) →
      Marina.processOutput fromScript fromConf addrs txid vout out = []) ∧
    (∀ v, v ∈ Marina.changeUtxos fromScript fromConf addrs txid outs ↔
      ∃ i out, outs[i]? = some out ∧
        v ∈ Marina.processOutput fromScript fromConf addrs txid i out) := by
  refine ⟨?_, ?_, ?_⟩
  · intro vout out h
    unfold Marina.processOutput
    rw [h]
  · intro vout out a hs hm
    unfold Marina.processOutput
    rw [hs]
    exact Marina.matchAddrs_eq_nil fromConf a txid vout addrs hm
  · intro v
    simp only [Marina.changeUtxos, List.mem_join, List.mem_map]
    constructor
    · rintro ⟨l, ⟨⟨i, out⟩, hp, rfl⟩, hv⟩
      exact ⟨i, out, List.mk_mem_enum_iff_getElem?.mp hp, hv⟩
    · rintro ⟨i, out, hio, hv⟩
      exact ⟨_, ⟨(i, out), List.mk_mem_enum_iff_getElem?.mpr hio, rfl⟩, hv⟩

/-- C7 witness: the theorem applied with a failing script parser, with an
external-recipient output matching no wallet address, and with the
membership characterization at a concrete candidate. -/
theorem C7_change_output_isolation_witness :
    Marina.processOutput Marina.failScript Marina.failConf [Marina.walletAddr1]
      Marina.txidA 0 ⟨[170]⟩ = [] ∧
    Marina.processOutput Marina.extScript Marina.unconfOf [Marina.walletAddr1]
      Marina.txidA 0 ⟨[170]⟩ = [] ∧
    ((⟨Marina.txidA, 0, Marina.walletAddr1.blindingPrivateKey⟩ : Marina.UnconfirmedOut) ∈
        Marina.changeUtxos Marina.extScript Marina.unconfOf [Marina.walletAddr1]
          Marina.txidA [⟨[170]⟩] ↔
      ∃ i out, ([⟨[170]⟩] : List Marina.TxOut)[i]? = some out ∧
        (⟨Marina.txidA, 0, Marina.walletAddr1.blindingPrivateKey⟩ : Marina.UnconfirmedOut) ∈
          Marina.processOutput Marina.extScript Marina.unconfOf [Marina.walletAddr1]
            Marina.txidA i out) := by
  have h₁ := C7_change_output_isolation Marina.failScript Marina.failConf
    [Marina.walletAddr1] Marina.txidA [⟨[170]⟩]
  have h₂ := C7_change_output_isolation Marina.extScript Marina.unconfOf
    [Marina.walletAddr1] Marina.txidA [⟨[170]⟩]
  refine ⟨h₁.1 0 ⟨[170]⟩ rfl, h₂.2.1 0 ⟨[170]⟩ Marina.extAddr rfl ?_,
    h₂.2.2 ⟨Marina.txidA, 0, Marina.walletAddr1.blindingPrivateKey⟩⟩
  intro addr haddr u hu
  rcases List.mem_singleton.mp haddr with rfl
  have hu₂ : u = Marina.unconfAddr := by
    have : some Marina.unconfAddr = some u := hu
    exact (Option.some.injEq _ _ ▸ this).symm
  subst hu₂
  exact ⟨by decide, by decide⟩

namespace Marina

/-- Persisted wallet state visible to the duplicate-creation guard. -/
structure StoredWallet where
  encryptedMnemonic : String
deriving DecidableEq, Repr

/-- Redux actions the wallet creation thunks dispatch. -/
inductive WalletAction where
  | createSuccess
  | createFailure
  | restoreSuccess
  | restoreFailure
deriving DecidableEq, Repr

/-- The guard `wallets.length > 0 && wallets[0].encryptedMnemonic`: true when
a wallet exists whose encrypted mnemonic is truthy (non-empty). -/
def hasExistingWallet (wallets : List StoredWallet) : Bool :=
  match wallets.head? with
  | some w => !(w.encryptedMnemonic == "")
  | none => false

/-- The error thrown on a duplicate wallet creation or restore attempt. -/
def duplicateWalletMsg : String :=
  "Wallet already exists. Remove the extension from the browser first to create a new one"

/-- Observable outcome of a wallet creation thunk: how many repository
writes were performed, which actions were dispatched, and the error thrown
to the caller, if any. -/
structure ThunkOutcome where
  repoWrites : Nat
  dispatched : List WalletAction
  thrown : Option String
deriving DecidableEq, Repr

/-- Embedding of `createWallet` (part_000). The guard throws before the try
block and before any repository access; inside the try block the crypto
derivation (oracle `deriveOk`) either succeeds — one `getOrCreateWallet`
write, then the success dispatch — or throws, which the catch turns into a
failure dispatch with no write. -/
def createWallet (wallets : List StoredWallet) (deriveOk : Bool) : ThunkOutcome :=
  if hasExistingWallet wallets then
    ⟨0, [], some duplicateWalletMsg⟩
  else if deriveOk then
    ⟨1, [WalletAction.createSuccess], none⟩
  else
    ⟨0, [WalletAction.createFailure], none⟩

/-- Embedding of `restoreWallet` (part_000): same guard, and the try block
additionally fails (caught, no write) when the restorer reports the wallet
not restored. -/
def restoreWallet (wallets : List StoredWallet) (deriveOk isRestored : Bool) :
    ThunkOutcome :=
  if hasExistingWallet wallets then
    ⟨0, [], some duplicateWalletMsg⟩
  else if deriveOk && isRestored then
    ⟨1, [WalletAction.restoreSuccess], none⟩
  else
    ⟨0, [WalletAction.restoreFailure], none⟩

/-- A persisted wallet with a non-empty encrypted mnemonic. -/
def existingWallet : StoredWallet := ⟨"3ncryptedM"⟩

end Marina

/-- C8: when the state already holds a wallet with a non-empty
encryptedMnemonic, `createWallet` and `restoreWallet` throw the duplicate
error to the caller before the try block — performing zero repository writes
and dispatching nothing — so persisted wallet state is unchanged. -/
theorem C8_duplicate_wallet_guard (wallets : List Marina.StoredWallet)
    (deriveOk isRestored : Bool)
    (h : Marina.hasExistingWallet wallets = true) :
    Marina.createWallet wallets deriveOk =
      ⟨0, [], some Marina.duplicateWalletMsg⟩ ∧
    Marina.restoreWallet wallets deriveOk isRestored =
      ⟨0, [], some Marina.duplicateWalletMsg⟩ := by
  unfold Marina.createWallet Marina.restoreWallet
  rw [if_pos h, if_pos h]
  exact ⟨rfl, rfl⟩

/-- C8 witness: the guard theorem applied to a state holding one wallet with
a non-empty encrypted mnemonic. -/
theorem C8_duplicate_wallet_guard_witness :
    Marina.hasExistingWallet [Marina.existingWallet] = true ∧
    (Marina.createWallet [Marina.existingWallet] true =
        ⟨0, [], some Marina.duplicateWalletMsg⟩ ∧
      Marina.restoreWallet [Marina.existingWallet] true true =
        ⟨0, [], some Marina.duplicateWalletMsg⟩) :=
  ⟨by decide, C8_duplicate_wallet_guard [Marina.existingWallet] true true (by decide)⟩
